import Mathlib

/-!
Verification of the adt mypy plugin (src/adt/mypy_plugin.py).

The file shallowly embeds the plugin's data model and operations:
the mypy node/type objects the plugin manipulates (`Var`, `Argument`,
`FuncDef`, `TypeVarExpr`, `SymbolTableNode`, `TypeInfo`, `CallableType`,
`TypeVarDef`), Python dict semantics for the class member symbol table
(insertion-ordered association list, in-place update on existing keys),
`mypy.util.get_unique_redefinition_name`, and the plugin's own methods
`_add_method`, `_get_class_vars`, `_add_typevar`,
`_callable_type_for_adt_case`, `_transform_class`,
`get_class_decorator_hook` and the module-level `plugin` entry point.

Python in-place mutation of the class's `TypeInfo` is modelled by explicit
state passing; a Python `assert` failure is an `Except.error` carrying the
state at the moment the assertion fires (mutations already performed remain
visible, exactly as an `AssertionError` leaves them in mypy's in-memory
model).
-/

/-- mypy.nodes argument kinds used by the plugin: `ARG_POS` (required
positional) and `ARG_NAMED` (required keyword-only). -/
inductive ArgKindT where
  | ARG_POS
  | ARG_NAMED
  deriving DecidableEq, Repr

/-- mypy.nodes symbol-table-node kinds; the plugin only ever creates `MDEF`
(member definition). -/
inductive SymKindT where
  | MDEF
  deriving DecidableEq, Repr

mutual
/-- The mypy types the plugin builds or passes around.

* `instanceT f`: an `Instance` of the class with fully qualified name `f`
  (the result of `fill_typevars` on a non-generic class).
* `anyT kind`: `AnyType(TypeOfAny....)`, tagged with the `TypeOfAny` member.
* `namedT f`: the result of `ctx.api.named_type(f)`.
* `typeVarT d`: `TypeVarType(d)` built from the `TypeVarDef` `d` (mypy copies
  the def's name, fullname, id, values and bound; we keep the def itself).
* `callableT argTypes argKinds argNames retType fallback vars`:
  `CallableType(arg_types, arg_kinds, arg_names, ret_type, fallback)` with
  `.variables` set to `vars`.  The callable's display name (attached by
  `set_callable_name`, which only affects diagnostics) is not modelled. -/
inductive MypyType where
  | instanceT (fullname : String) : MypyType
  | anyT (typeOfAny : String) : MypyType
  | namedT (fullname : String) : MypyType
  | typeVarT (dfn : TypeVarDefT) : MypyType
  | callableT (argTypes : List MypyType) (argKinds : List ArgKindT)
      (argNames : List (Option String)) (retType : MypyType)
      (fallback : MypyType) (tvars : List TypeVarDefT) : MypyType

/-- mypy.types.TypeVarDef: `TypeVarDef(name, fullname, id, values, upper_bound)`. -/
inductive TypeVarDefT where
  | mk (name : String) (fullname : String) (id : Int)
      (values : List MypyType) (upperBound : MypyType) : TypeVarDefT
end

/-- Source-level name of a type variable definition. -/
def TypeVarDefT.name : TypeVarDefT → String
  | .mk n _ _ _ _ => n

/-- Fully qualified name (identity) of a type variable definition. -/
def TypeVarDefT.fullname : TypeVarDefT → String
  | .mk _ f _ _ _ => f

/-- mypy.nodes.Var: a variable node with an optional declared type. -/
structure VarT where
  name : String
  type : Option MypyType

/-- mypy.nodes.Argument: `Argument(variable, type_annotation, initializer, kind)`.
The plugin always passes `initializer=None`; the field records presence only. -/
structure ArgumentT where
  var : VarT
  typeAnn : Option MypyType
  initExpr : Option Unit
  kind : ArgKindT

/-- mypy.nodes.FuncDef as the plugin constructs it.  The body is always
`Block([PassStmt()])` (a no-op placeholder, per the source comment that only
the declared signature matters) and is not modelled; `func.info` is the
enclosing `TypeInfo`, represented by the `fullname` component baked into
`_fullname`. -/
structure FuncDefT where
  name : String
  args : List ArgumentT
  isClass : Bool
  type : Option MypyType
  fullname : String
  line : Nat

/-- The node held by a symbol table entry: a `Var`, a `FuncDef`, a
`TypeVarExpr(name, fullname, values, upper_bound)`, or some other node kind
the plugin never inspects. -/
inductive NodeT where
  | varNode (v : VarT) : NodeT
  | funcDefNode (f : FuncDefT) : NodeT
  | typeVarExprNode (name : String) (fullname : String)
      (values : List MypyType) (upperBound : MypyType) : NodeT
  | otherNode : NodeT

/-- mypy.nodes.SymbolTableNode: `SymbolTableNode(kind, node, plugin_generated=...)`. -/
structure SymbolTableNodeT where
  kind : SymKindT
  node : NodeT
  pluginGenerated : Bool

/-- An assignment left-hand side: a `NameExpr` or anything else. -/
inductive LvalT where
  | nameExpr (name : String) : LvalT
  | otherLval : LvalT

/-- A statement of a class body, as far as the plugin can observe it: an
`AssignmentStmt` (only its lvalues matter to `_get_class_vars`), a `FuncDef`
(what `_add_method` appends to and removes from the body), or anything else. -/
inductive StatementT where
  | assignmentStmt (lvalues : List LvalT) : StatementT
  | funcDefStmt (f : FuncDefT) : StatementT
  | otherStmt : StatementT

/-- The slice of mypy.nodes.TypeInfo the plugin reads and mutates: the short
name, fully qualified name and line of the class, the class body
(`defn.defs.body`, also reachable as `ctx.cls.defs.body`) and the member
symbol table `info.names`. -/
structure TypeInfoT where
  name : String
  fullname : String
  line : Nat
  defsBody : List StatementT
  names : List (String × SymbolTableNodeT)

/-! Python dict semantics for symbol tables: an insertion-ordered association
list; writing an existing key replaces the value in place, writing a new key
appends at the end; lookup finds the (unique) binding. -/

/-- Dict lookup, `d[key]` / `d.get(key)`. -/
def dictGet {α : Type} : List (String × α) → String → Option α
  | [], _ => none
  | (k, v) :: d, key => if k = key then some v else dictGet d key

/-- Dict update, `d[key] = val`: replaces in place or appends. -/
def dictSet {α : Type} : List (String × α) → String → α → List (String × α)
  | [], key, val => [(key, val)]
  | (k, v) :: d, key, val =>
      if k = key then (key, val) :: d else (k, v) :: dictSet d key val

/-- Dict key-containment test, `key in d`. -/
def dictContains {α : Type} (d : List (String × α)) (key : String) : Bool :=
  (dictGet d key).isSome

/-- The keys of a dict, in order. -/
def dictKeys {α : Type} (d : List (String × α)) : List String :=
  d.map Prod.fst

/-- Python str.lower for the identifier strings case names are: lowercase the
string character by character (String.toLower, written over the character
list so it computes by kernel reduction). -/
def strLower (s : String) : String := String.mk (s.data.map Char.toLower)

/-! Decimal representation of naturals, as Python `str(i)` renders them
(needed by `get_unique_redefinition_name`'s disambiguating suffixes). -/

/-- The decimal digit character for `n < 10`. -/
def digitChar (n : Nat) : Char := Char.ofNat (48 + n)

/-- Digit-list worker for `natRepr`; the fuel argument (always at least the
number of digits) makes the recursion structural. -/
def natReprAux : Nat → Nat → List Char
  | 0, _ => []
  | fuel + 1, n =>
      if n < 10 then [digitChar n]
      else natReprAux fuel (n / 10) ++ [digitChar (n % 10)]

/-- Decimal rendering of a natural number, Python's `str(i)` for `i >= 0`. -/
def natRepr (n : Nat) : String := String.mk (natReprAux (n + 1) n)

/-! mypy.util.get_unique_redefinition_name: try `name + '-redefinition'`,
then `name + '-redefinition2'`, `name + '-redefinition3'`, ... until a name
not present in the table is found. -/

/-- Suffix-search loop of `get_unique_redefinition_name`: the first index
`j >= i` whose candidate `rName ++ str j` is absent from the table.  The fuel
bounds the loop; with fuel `existing.length + 1` the unchecked fallback at
fuel 0 is unreachable (a table with `n` entries cannot contain `n + 1`
distinct candidate names). -/
def findFreeSuffix {α : Type} (rName : String) (existing : List (String × α)) :
    Nat → Nat → String
  | i, 0 => rName ++ natRepr i
  | i, fuel + 1 =>
      if dictContains existing (rName ++ natRepr i) then
        findFreeSuffix rName existing (i + 1) fuel
      else rName ++ natRepr i

/-- mypy.util.get_unique_redefinition_name. -/
def get_unique_redefinition_name {α : Type} (name : String)
    (existing : List (String × α)) : String :=
  let rName := name ++ "-redefinition"
  if dictContains existing rName = false then rName
  else findFreeSuffix rName existing 2 (existing.length + 1)

/-! Structural equality on the node model.  Python's `list.remove(x)` removes
the first element equal to `x`; for mypy node objects equality is object
identity, which structural equality stands in for (the removed node is the
table's own `sym.node`, structurally unique in the body in the states the
plugin produces). -/

mutual
/-- Structural equality of mypy types. -/
def mtBeq : MypyType → MypyType → Bool
  | .instanceT a, .instanceT b => a == b
  | .anyT a, .anyT b => a == b
  | .namedT a, .namedT b => a == b
  | .typeVarT a, .typeVarT b => tvdBeq a b
  | .callableT ts ks ns r fb vs, .callableT ts' ks' ns' r' fb' vs' =>
      mtListBeq ts ts' && ks == ks' && ns == ns' && mtBeq r r'
        && mtBeq fb fb' && tvdListBeq vs vs'
  | _, _ => false

/-- Structural equality of type variable definitions. -/
def tvdBeq : TypeVarDefT → TypeVarDefT → Bool
  | .mk n f i vals ub, .mk n' f' i' vals' ub' =>
      n == n' && f == f' && i == i' && mtListBeq vals vals' && mtBeq ub ub'

/-- Structural equality of lists of mypy types. -/
def mtListBeq : List MypyType → List MypyType → Bool
  | [], [] => true
  | a :: as, b :: bs => mtBeq a b && mtListBeq as bs
  | _, _ => false

/-- Structural equality of lists of type variable definitions. -/
def tvdListBeq : List TypeVarDefT → List TypeVarDefT → Bool
  | [], [] => true
  | a :: as, b :: bs => tvdBeq a b && tvdListBeq as bs
  | _, _ => false
end

/-- Structural equality of optional mypy types. -/
def optMtBeq : Option MypyType → Option MypyType → Bool
  | none, none => true
  | some a, some b => mtBeq a b
  | _, _ => false

/-- Structural equality of Var nodes. -/
def varBeq (a b : VarT) : Bool :=
  a.name == b.name && optMtBeq a.type b.type

/-- Structural equality of Argument nodes. -/
def argBeq (a b : ArgumentT) : Bool :=
  varBeq a.var b.var && optMtBeq a.typeAnn b.typeAnn
    && a.initExpr.isSome == b.initExpr.isSome && a.kind == b.kind

/-- Structural equality of Argument lists. -/
def argListBeq : List ArgumentT → List ArgumentT → Bool
  | [], [] => true
  | a :: as, b :: bs => argBeq a b && argListBeq as bs
  | _, _ => false

/-- Structural equality of FuncDef nodes (object identity stand-in). -/
def funcDefBeq (a b : FuncDefT) : Bool :=
  a.name == b.name && argListBeq a.args b.args && a.isClass == b.isClass
    && optMtBeq a.type b.type && a.fullname == b.fullname && a.line == b.line

/-- Python `body.remove(node)` for a FuncDef node: drop the first body
statement holding that node (no-op when absent; mypy guarantees presence in
the states where the plugin calls it). -/
def removeFuncDef : List StatementT → FuncDefT → List StatementT
  | [], _ => []
  | st :: rest, f =>
      match st with
      | StatementT.funcDefStmt g =>
          if funcDefBeq g f then rest else st :: removeFuncDef rest f
      | _ => st :: removeFuncDef rest f

/-! The plugin's helpers over the mypy API. -/

/-- mypy.typevars.fill_typevars: the class's own `Instance` type with its type
parameters applied to themselves; the decorated classes carry no type
parameters, so this is the plain instance type (always an `Instance`, so the
`assert isinstance(instanceType, mypy.types.Instance)` in `_transform_class`
holds trivially). -/
def fill_typevars (info : TypeInfoT) : MypyType :=
  MypyType.instanceT info.fullname

/-- ClassDefContext.api.named_type: a reference to a library type. -/
def named_type (fullname : String) : MypyType :=
  MypyType.namedT fullname

/-- Extraction of the annotation of every argument, mirroring the
`assert arg.type_annotation` loop of `_add_method`: `none` exactly when some
argument lacks an annotation. -/
def argTypesOf : List ArgumentT → Option (List MypyType)
  | [] => some []
  | a :: rest =>
      match a.typeAnn with
      | some t => (argTypesOf rest).map (fun ts => t :: ts)
      | none => none

/-- Lines 36-41 of `_add_method`: "First remove any previously generated
methods with the same name" — drop the stale generated FuncDef from the class
body (the symbol table itself is not touched by this step). -/
def removeStaleBody (info : TypeInfoT) (name : String) : List StatementT :=
  match dictGet info.names name with
  | some sym =>
      match sym.node with
      | NodeT.funcDefNode f =>
          if sym.pluginGenerated then removeFuncDef info.defsBody f
          else info.defsBody
      | _ => info.defsBody
  | none => info.defsBody

/-- Lines 43-54 of `_add_method`: the prepended first argument — `cls` typed
`Any` (the python/mypy#5416 workaround) for classmethods, otherwise `self`
typed by `self_type or fill_typevars(info)`. -/
def methodFirstArg (info : TypeInfoT) (selfType : Option MypyType)
    (isClassmethod : Bool) : ArgumentT :=
  if isClassmethod then
    { var := { name := "cls", type := none },
      typeAnn := some (MypyType.anyT "implementation_artifact"),
      initExpr := none, kind := ArgKindT.ARG_POS }
  else
    { var := { name := "self", type := none },
      typeAnn := some (selfType.getD (fill_typevars info)),
      initExpr := none, kind := ArgKindT.ARG_POS }

/-- Lines 58-70 of `_add_method`: the `CallableType` signature over the full
argument list, with fallback `function` and `signature.variables = [tvar_def]`
when a method type variable is given. -/
def methodSignature (args1 : List ArgumentT) (argTypes : List MypyType)
    (returnType : MypyType) (tvarDef : Option TypeVarDefT) : MypyType :=
  let functionType := named_type "__builtins__.function"
  let argNames := args1.map fun a => some a.var.name
  let argKinds := args1.map fun a => a.kind
  match tvarDef with
  | some d =>
      MypyType.callableT argTypes argKinds argNames returnType functionType [d]
  | none =>
      MypyType.callableT argTypes argKinds argNames returnType functionType []

/-- Lines 72-77 of `_add_method`: the generated `FuncDef` node.
`func.type = set_callable_name(signature, func)`, where `set_callable_name`
only attaches a diagnostic display name to the signature (not modelled). -/
def methodFuncDef (info : TypeInfoT) (name : String) (args1 : List ArgumentT)
    (signature : MypyType) (isClassmethod : Bool) : FuncDefT :=
  { name := name, args := args1, isClass := isClassmethod,
    type := some signature,
    fullname := info.fullname ++ "." ++ name,
    line := info.line }

/-- Line 87 of `_add_method`: the installed symbol,
`SymbolTableNode(MDEF, func, plugin_generated=True)`. -/
def genSym (f : FuncDefT) : SymbolTableNodeT :=
  { kind := SymKindT.MDEF, node := NodeT.funcDefNode f, pluginGenerated := true }

/-- Lines 79-84 of `_add_method`: when the name is already bound, keep the
existing definition reachable by copying it to a unique redefinition name
(the generated symbol then takes the canonical name). -/
def renameShift (d : List (String × SymbolTableNodeT)) (name : String) :
    List (String × SymbolTableNodeT) :=
  match dictGet d name with
  | some sym => dictSet d (get_unique_redefinition_name name d) sym
  | none => d

/-- ADTPlugin._add_method (mypy_plugin.py lines 22-87): adds a generated
method to the class.  Removes a previously generated same-named FuncDef from
the class body, prepends the `cls`/`self` argument, asserts every argument is
annotated, builds the `CallableType` signature and the `FuncDef`, renames any
existing same-named symbol to a unique redefinition name, appends the FuncDef
to the body and installs the symbol marked `plugin_generated`. -/
def _add_method (info : TypeInfoT) (name : String) (args : List ArgumentT)
    (returnType : MypyType) (selfType : Option MypyType)
    (tvarDef : Option TypeVarDefT) (isClassmethod : Bool) :
    Except (String × TypeInfoT) TypeInfoT :=
  let body1 := removeStaleBody info name
  let args1 := methodFirstArg info selfType isClassmethod :: args
  match argTypesOf args1 with
  | none => .error ("All arguments must be fully typed.", { info with defsBody := body1 })
  | some argTypes =>
      let func := methodFuncDef info name args1
        (methodSignature args1 argTypes returnType tvarDef) isClassmethod
      .ok { info with
        defsBody := body1 ++ [StatementT.funcDefStmt func],
        names := dictSet (renameShift info.names name) name (genSym func) }

/-- ADTPlugin._get_class_vars (lines 89-97): the Var nodes of the member
table looked up from the NameExpr lvalues of the body's assignment
statements, in body order. -/
def _get_class_vars (info : TypeInfoT) : List VarT :=
  info.defsBody.flatMap fun statement =>
    match statement with
    | StatementT.assignmentStmt lvalues =>
        lvalues.filterMap fun lval =>
          match lval with
          | LvalT.nameExpr n =>
              match dictGet info.names n with
              | some sym =>
                  match sym.node with
                  | NodeT.varNode v => some v
                  | _ => none
              | none => none
          | _ => none
    | _ => []

/-- ADTPlugin._add_typevar (lines 99-109): installs a `TypeVarExpr` symbol
(not marked plugin-generated) under `tVarName`, qualified by the class's
fullname, and returns the corresponding `TypeVarDef` with id -1 and upper
bound `object`. -/
def _add_typevar (info : TypeInfoT) (tVarName : String) :
    TypeInfoT × TypeVarDefT :=
  let tVarQualifiedName := info.fullname ++ "." ++ tVarName
  let objectType := named_type "__builtins__.object"
  let tVarExpr := NodeT.typeVarExprNode tVarName tVarQualifiedName [] objectType
  let info1 : TypeInfoT := { info with
    names := dictSet info.names tVarName
      { kind := SymKindT.MDEF, node := tVarExpr, pluginGenerated := false } }
  (info1, TypeVarDefT.mk tVarName tVarQualifiedName (-1) [] objectType)

/-- ADTPlugin._callable_type_for_adt_case (lines 111-122): the handler type
for one case, `Callable[[case.type], resultType]` with `.variables` set to
`[resultType]`. -/
def _callable_type_for_adt_case (case : VarT) (resultType : TypeVarDefT) :
    MypyType :=
  MypyType.callableT
    [case.type.getD (MypyType.anyT "unannotated")]
    [ArgKindT.ARG_POS] [none]
    (MypyType.typeVarT resultType)
    (named_type "__builtins__.function")
    [resultType]

/-- A dict keyed by Var objects (the `caseCallables` comprehension).  Python
compares dict keys of plain `Var` objects by object identity; Var objects
obtained from a single member table coincide exactly when their names do, so
keys are compared by name. -/
def varDictSet (d : List (VarT × MypyType)) (k : VarT) (v : MypyType) :
    List (VarT × MypyType) :=
  match d with
  | [] => [(k, v)]
  | (k', v') :: rest =>
      if k'.name = k.name then (k, v) :: rest
      else (k', v') :: varDictSet rest k v

/-- A record of one `_add_method` request: the generated method's name,
explicit arguments, return type, method-scoped type variable and
classmethod flag.  `_transform_class` below returns, next to the mutated
class state, the ordered list of these requests it issued (its emission
trace). -/
structure GenSig where
  name : String
  args : List ArgumentT
  returnType : MypyType
  tvarDef : Option TypeVarDefT
  isClassmethod : Bool

/-- Message of the `assert case.type` precondition in `_transform_class`. -/
def untypedCasesMsg : String :=
  "Untyped cases are not currently supported in adt.mypy_plugin"

/-- The per-case loop of `_transform_class` (lines 133-152): for each case in
order, assert it is typed, then add the classmethod constructor (named
exactly like the case, one positional payload argument) and the lowercase
accessor (no arguments, returning the case type). -/
def transformCases (instanceType : MypyType) :
    TypeInfoT → List VarT → Except (String × TypeInfoT) (TypeInfoT × List GenSig)
  | info, [] => .ok (info, [])
  | info, case :: rest =>
      match case.type with
      | none => .error (untypedCasesMsg, info)
      | some t =>
          let ctorArgs : List ArgumentT :=
            [{ var := case, typeAnn := some t, initExpr := none,
               kind := ArgKindT.ARG_POS }]
          match _add_method info case.name ctorArgs instanceType none none true with
          | .error e => .error e
          | .ok info1 =>
              match _add_method info1 (strLower case.name) [] t none none false with
              | .error e => .error e
              | .ok info2 =>
                  match transformCases instanceType info2 rest with
                  | .error e => .error e
                  | .ok (info3, log) =>
                      .ok (info3,
                        { name := case.name, args := ctorArgs,
                          returnType := instanceType, tvarDef := none,
                          isClassmethod := true } ::
                        { name := strLower case.name, args := [],
                          returnType := t, tvarDef := none,
                          isClassmethod := false } :: log)

/-- ADTPlugin._transform_class (lines 124-176): extract the cases, add the
constructor and accessor for each, install the `_MatchResult` type variable,
and add the generic `match` method whose required named arguments are the
per-case handler callables (keyed by the case Var objects, in case order).
Returns the mutated class state together with the trace of issued
`_add_method` requests. -/
def _transform_class (info : TypeInfoT) :
    Except (String × TypeInfoT) (TypeInfoT × List GenSig) :=
  let instanceType := fill_typevars info
  let cases := _get_class_vars info
  match transformCases instanceType info cases with
  | .error e => .error e
  | .ok (info1, caseLog) =>
      let p := _add_typevar info1 "_MatchResult"
      let info2 := p.1
      let matchResultType := p.2
      let caseCallables := cases.foldl
        (fun d case =>
          varDictSet d case (_callable_type_for_adt_case case matchResultType))
        []
      let matchArgs : List ArgumentT := caseCallables.map fun q =>
        { var := { name := strLower q.1.name, type := some q.2 },
          typeAnn := some q.2, initExpr := none,
          kind := ArgKindT.ARG_NAMED }
      match _add_method info2 "match" matchArgs
          (MypyType.typeVarT matchResultType) none (some matchResultType) false with
      | .error e => .error e
      | .ok info3 =>
          .ok (info3, caseLog ++
            [{ name := "match", args := matchArgs,
               returnType := MypyType.typeVarT matchResultType,
               tvarDef := some matchResultType, isClassmethod := false }])

/-- The hook value `get_class_decorator_hook` can return: the bound
`_transform_class` entry point. -/
inductive HookT where
  | transformClassHook
  deriving DecidableEq, Repr

/-- ADTPlugin._ADT_DECORATOR. -/
def _ADT_DECORATOR : String := "adt.decorator.adt"

/-- ADTPlugin.get_class_decorator_hook (lines 178-184). -/
def get_class_decorator_hook (fullname : String) : Option HookT :=
  if fullname ≠ _ADT_DECORATOR then none
  else some HookT.transformClassHook

/-! The module-level `plugin(version)` entry point and its model of
decimal.Decimal string comparison. -/

/-- Numeric value of a decimal digit character. -/
def digitVal? (c : Char) : Option Nat :=
  if c.isDigit then some (c.toNat - 48) else none

/-- Accumulating parse of a digit string; `none` when a non-digit occurs. -/
def parseDigitsAux : List Char → Nat → Option Nat
  | [], acc => some acc
  | c :: cs, acc =>
      match digitVal? c with
      | some d => parseDigitsAux cs (acc * 10 + d)
      | none => none

/-- Split at the first '.', returning the part before it and, when a dot is
present, the part after it. -/
def splitOnDot : List Char → List Char × Option (List Char)
  | [] => ([], none)
  | c :: cs =>
      if c = '.' then ([], some cs)
      else
        let p := splitOnDot cs
        (c :: p.1, p.2)

/-- Model of `decimal.Decimal(s)` string parsing, restricted to the unsigned
fixed-point numerals version strings take (`digits`, `digits.digits`,
`.digits`, `digits.`): the coefficient and scale, with numeric value
coefficient / 10 ^ scale.  Other strings raise, modelled as `none`. -/
def parseDecimal (s : String) : Option (Nat × Nat) :=
  match splitOnDot s.data with
  | (ip, none) =>
      if ip.isEmpty then none
      else (parseDigitsAux ip 0).map (fun n => (n, 0))
  | (ip, some fp) =>
      if ip.isEmpty && fp.isEmpty then none
      else
        match parseDigitsAux ip 0, parseDigitsAux fp 0 with
        | some i, some f => some (i * 10 ^ fp.length + f, fp.length)
        | _, _ => none

/-- Decimal comparison `a <= b` by cross multiplication of coefficients, as
decimal.Decimal compares (numeric-decimal, not lexical). -/
def decimalLE (a b : Nat × Nat) : Bool :=
  decide (a.1 * 10 ^ b.2 ≤ b.1 * 10 ^ a.2)

/-- The plugin class the module-level entry point returns. -/
inductive PluginClassT where
  | ADTPlugin
  deriving DecidableEq, Repr

/-- Module-level `plugin(version)` (lines 187-189):
`assert Decimal(version) >= Decimal('0.711'); return ADTPlugin`.  An
unparsable version string raises in the `Decimal` constructor, a version
below the floor fails the assert; both abort registration. -/
def plugin (version : String) : Except String PluginClassT :=
  match parseDecimal version, parseDecimal "0.711" with
  | some dv, some dfloor =>
      if decimalLE dfloor dv then .ok PluginClassT.ADTPlugin
      else .error "AssertionError"
  | _, _ => .error "decimal.InvalidOperation"

/-! Observation helpers over transformation results. -/

/-- Result type of `_transform_class`. -/
abbrev TransResult := Except (String × TypeInfoT) (TypeInfoT × List GenSig)

/-- Did the transformation complete without a precondition failure? -/
def isOkT : TransResult → Bool
  | .ok _ => true
  | .error _ => false

/-- The member table of a completed transformation (empty on failure). -/
def okNames : TransResult → List (String × SymbolTableNodeT)
  | .ok p => p.1.names
  | .error _ => []

/-- The mutated class state of a completed transformation. -/
def okState : TransResult → Option TypeInfoT
  | .ok p => some p.1
  | .error _ => none

/-- The emission trace of a completed transformation (empty on failure). -/
def okLog : TransResult → List GenSig
  | .ok p => p.2
  | .error _ => []

/-- The member table at the moment an aborted transformation raised. -/
def errNames : TransResult → List (String × SymbolTableNodeT)
  | .error e => e.2.names
  | .ok _ => []

/-- The numeric value of a parsed decimal (spec's numeric-decimal reading). -/
def decimalValue (d : Nat × Nat) : ℚ :=
  (d.1 : ℚ) / 10 ^ d.2

/-- Did an `_add_method` call complete (its well-typedness assert passed)? -/
def addIsOk : Except (String × TypeInfoT) TypeInfoT → Bool
  | .ok _ => true
  | .error _ => false

/-- The member table after a completed `_add_method` call (empty on failure). -/
def addNames : Except (String × TypeInfoT) TypeInfoT → List (String × SymbolTableNodeT)
  | .ok i => i.names
  | .error _ => []

/-- The name of the FuncDef a symbol-table node holds, when it holds one. -/
def nodeFuncName : NodeT → Option String
  | NodeT.funcDefNode f => some f.name
  | _ => none


/-! Specification-side descriptions of the generated signatures (spec §4.2,
§8; used to compare the emission trace of `_transform_class` against the
spec's wording). -/

/-- Spec wording: the per-variant constructor is a classmethod named exactly
like the variant (case-sensitive), takes one required positional parameter of
the variant's declared type, and returns the enclosing type. -/
def specConstructorSig (instanceType : MypyType) (case : VarT) : GenSig :=
  { name := case.name,
    args := [{ var := case, typeAnn := case.type, initExpr := none,
               kind := ArgKindT.ARG_POS }],
    returnType := instanceType,
    tvarDef := none,
    isClassmethod := true }

/-- Spec wording: the per-variant accessor is an instance method named by
lowercasing the variant name, takes zero parameters, and returns the
variant's declared type. -/
def specAccessorSig (case : VarT) : GenSig :=
  { name := strLower case.name,
    args := [],
    returnType := case.type.getD (MypyType.anyT "unannotated"),
    tvarDef := none,
    isClassmethod := false }

/-- Spec wording: the fresh `match` result type variable, named
`_MatchResult` with a fully qualified identity derived from the enclosing
type's qualified name. -/
def specMatchResultVar (info : TypeInfoT) : TypeVarDefT :=
  TypeVarDefT.mk "_MatchResult" (info.fullname ++ "." ++ "_MatchResult") (-1) []
    (MypyType.namedT "__builtins__.object")

/-- Spec wording: a `match` handler parameter's type, a function from the
variant's declared type to the result type variable. -/
def specHandlerType (info : TypeInfoT) (case : VarT) : MypyType :=
  MypyType.callableT [case.type.getD (MypyType.anyT "unannotated")]
    [ArgKindT.ARG_POS] [none]
    (MypyType.typeVarT (specMatchResultVar info))
    (MypyType.namedT "__builtins__.function")
    [specMatchResultVar info]

/-- Spec wording: the generated `match` method, an instance method generic
over the fresh result type variable with one required named handler
parameter per variant, named by lowercasing the variant name, in declaration
order, each with no default, returning the result type variable. -/
def specMatchSig (info : TypeInfoT) : GenSig :=
  { name := "match",
    args := (_get_class_vars info).map fun case =>
      { var := { name := strLower case.name, type := some (specHandlerType info case) },
        typeAnn := some (specHandlerType info case),
        initExpr := none,
        kind := ArgKindT.ARG_NAMED },
    returnType := MypyType.typeVarT (specMatchResultVar info),
    tvarDef := some (specMatchResultVar info),
    isClassmethod := false }

/-- The `_MatchResult` symbol `_add_typevar` installs for a class. -/
def matchResultSym (info : TypeInfoT) : SymbolTableNodeT :=
  { kind := SymKindT.MDEF,
    node := NodeT.typeVarExprNode "_MatchResult"
      (info.fullname ++ "." ++ "_MatchResult") [] (named_type "__builtins__.object"),
    pluginGenerated := false }

/-- The generated `match` FuncDef of a class declaring zero variants: its
only parameter is `self`, typed as the enclosing instance, and it returns the
fresh result type variable, over which the signature is generic. -/
def zeroVariantMatchFunc (info : TypeInfoT) : FuncDefT :=
  { name := "match",
    args := [{ var := { name := "self", type := none },
               typeAnn := some (MypyType.instanceT info.fullname),
               initExpr := none, kind := ArgKindT.ARG_POS }],
    isClass := false,
    type := some (MypyType.callableT [MypyType.instanceT info.fullname]
      [ArgKindT.ARG_POS] [some "self"]
      (MypyType.typeVarT (specMatchResultVar info))
      (MypyType.namedT "__builtins__.function") [specMatchResultVar info]),
    fullname := info.fullname ++ "." ++ "match",
    line := info.line }

/-! Concrete decorated classes used as test inputs: the member table of a
class holds one Var symbol per declared case attribute (installed by mypy's
semantic analysis before the plugin hook runs), and the body holds the
corresponding assignment statements. -/

/-- Library type used as a payload type in the examples. -/
def intType : MypyType := MypyType.namedT "builtins.int"

/-- Library type used as a payload type in the examples. -/
def strType : MypyType := MypyType.namedT "builtins.str"

/-- Library type used as a payload type in the examples. -/
def boolType : MypyType := MypyType.namedT "builtins.bool"

/-- The member-table symbol of a declared case attribute. -/
def varSym (v : VarT) : SymbolTableNodeT :=
  { kind := SymKindT.MDEF, node := NodeT.varNode v, pluginGenerated := false }

/-- A decorated class declaring zero variants. -/
def c1Class : TypeInfoT :=
  { name := "Nil", fullname := "m.Nil", line := 1, defsBody := [], names := [] }

/-- State after one transformation pass over `c1Class`. -/
def c1Run1 : Option TypeInfoT := okState (_transform_class c1Class)

/-- State after a second transformation pass over the result of the first. -/
def c1Run2 : Option TypeInfoT := c1Run1.bind fun i => okState (_transform_class i)

/-- A typed case attribute `A: int`. -/
def c2VarA : VarT := { name := "A", type := some intType }

/-- An untyped case attribute `B`. -/
def c2VarB : VarT := { name := "B", type := none }

/-- A decorated class declaring the typed variant `A: int` followed by the
untyped variant `B`. -/
def c2Class : TypeInfoT :=
  { name := "Bad", fullname := "m.Bad", line := 1,
    defsBody := [StatementT.assignmentStmt [LvalT.nameExpr "A"],
                 StatementT.assignmentStmt [LvalT.nameExpr "B"]],
    names := [("A", varSym c2VarA), ("B", varSym c2VarB)] }

/-- A decorated class whose single declared variant is untyped. -/
def c2FirstClass : TypeInfoT :=
  { name := "Worse", fullname := "m.Worse", line := 4,
    defsBody := [StatementT.assignmentStmt [LvalT.nameExpr "U"]],
    names := [("U", varSym { name := "U", type := none })] }

/-- Case attribute `Foo: int`. -/
def c6VarFoo : VarT := { name := "Foo", type := some intType }

/-- Case attribute `FOO: str`; its name folds to the same lowercase accessor
name as `Foo`. -/
def c6VarFOO : VarT := { name := "FOO", type := some strType }

/-- A decorated class declaring two variants whose lowercase-folded names
coincide (`Foo` and `FOO` both fold to `foo`). -/
def c6Class : TypeInfoT :=
  { name := "Coll", fullname := "m.Coll", line := 2,
    defsBody := [StatementT.assignmentStmt [LvalT.nameExpr "Foo"],
                 StatementT.assignmentStmt [LvalT.nameExpr "FOO"]],
    names := [("Foo", varSym c6VarFoo), ("FOO", varSym c6VarFOO)] }

/-- Case attributes of the spec's order-preservation example. -/
def c3VarA : VarT := { name := "A", type := some intType }

/-- Case attribute `B: str` of the order-preservation example. -/
def c3VarB : VarT := { name := "B", type := some strType }

/-- Case attribute `C: bool` of the order-preservation example. -/
def c3VarC : VarT := { name := "C", type := some boolType }

/-- The spec's order-preservation example: a decorated class declaring
variants `[A: int, B: str, C: bool]` in that order. -/
def c3Class : TypeInfoT :=
  { name := "Ord", fullname := "m.Ord", line := 7,
    defsBody := [StatementT.assignmentStmt [LvalT.nameExpr "A"],
                 StatementT.assignmentStmt [LvalT.nameExpr "B"],
                 StatementT.assignmentStmt [LvalT.nameExpr "C"]],
    names := [("A", varSym c3VarA), ("B", varSym c3VarB), ("C", varSym c3VarC)] }

/-- A hand-written user method named `A`, colliding with the generated
constructor name of variant `A`. -/
def c5UserFunc : FuncDefT :=
  { name := "A", args := [], isClass := false, type := none,
    fullname := "m.User.A", line := 9 }

/-- The user-authored (not plugin-generated) symbol for `c5UserFunc`. -/
def c5UserSym : SymbolTableNodeT :=
  { kind := SymKindT.MDEF, node := NodeT.funcDefNode c5UserFunc,
    pluginGenerated := false }

/-- A class state whose member table already holds the user-authored method
`A` when the plugin is about to install a generated method named `A`. -/
def c5Info : TypeInfoT :=
  { name := "User", fullname := "m.User", line := 8,
    defsBody := [StatementT.funcDefStmt c5UserFunc],
    names := [("A", c5UserSym)] }

/-- The single payload argument of the generated constructor for a variant
`A: int`, used by the user-override witness. -/
def c5Args : List ArgumentT :=
  [{ var := { name := "A", type := some intType },
     typeAnn := some intType, initExpr := none, kind := ArgKindT.ARG_POS }]

/-- First of two decorated classes with distinct fully qualified names. -/
def c9ClassA : TypeInfoT :=
  { name := "P", fullname := "m.P", line := 1, defsBody := [], names := [] }

/-- Second of two decorated classes with distinct fully qualified names. -/
def c9ClassB : TypeInfoT :=
  { name := "Q", fullname := "n.Q", line := 1, defsBody := [], names := [] }

/-- A decorated class declaring zero variants (input of the zero-variant
claim's witness). -/
def c10Class : TypeInfoT :=
  { name := "Zero", fullname := "m.Zero", line := 3,
    defsBody := [StatementT.otherStmt], names := [] }

/-! Lemmas about the Python dict model. -/

theorem dictGet_dictSet_self {α : Type} (d : List (String × α)) (k : String) (v : α) :
    dictGet (dictSet d k v) k = some v := by
  induction d with
  | nil => simp [dictSet, dictGet]
  | cons p d ih =>
      obtain ⟨k', v'⟩ := p
      by_cases h : k' = k
      · subst h
        simp [dictSet, dictGet]
      · simp [dictSet, dictGet, h, ih]


theorem dictGet_dictSet_ne {α : Type} (d : List (String × α)) (k k' : String) (v : α)
    (h : k' ≠ k) : dictGet (dictSet d k v) k' = dictGet d k' := by
  have h' : k ≠ k' := fun hk => h hk.symm
  induction d with
  | nil => simp [dictSet, dictGet, h']
  | cons p d ih =>
      obtain ⟨k'', v''⟩ := p
      by_cases hk : k'' = k
      · subst hk
        simp [dictSet, dictGet, h']
      · simp [dictSet, dictGet, hk, ih]

theorem dictContains_dictSet_self {α : Type} (d : List (String × α)) (k : String) (v : α) :
    dictContains (dictSet d k v) k = true := by
  simp [dictContains, dictGet_dictSet_self]

theorem dictContains_dictSet_mono {α : Type} (d : List (String × α)) (k k' : String) (v : α)
    (h : dictContains d k' = true) : dictContains (dictSet d k v) k' = true := by
  by_cases hk : k' = k
  · subst hk
    exact dictContains_dictSet_self d k' v
  · simpa [dictContains, dictGet_dictSet_ne d k k' v hk] using h

theorem dictContains_iff_mem_keys {α : Type} (d : List (String × α)) (k : String) :
    dictContains d k = true ↔ k ∈ dictKeys d := by
  induction d with
  | nil => simp [dictContains, dictGet, dictKeys]
  | cons p d ih =>
      obtain ⟨k', v'⟩ := p
      by_cases h : k' = k
      · subst h
        simp [dictContains, dictGet, dictKeys]
      · have h' : ¬(k = k') := fun hk => h hk.symm
        have hL : dictContains ((k', v') :: d) k = dictContains d k := by
          simp [dictContains, dictGet, h]
        rw [hL, ih]
        simp [dictKeys, h']

theorem dictGet_isSome_of_contains {α : Type} {d : List (String × α)} {k : String}
    (h : dictContains d k = true) : ∃ v, dictGet d k = some v := by
  unfold dictContains at h
  cases hv : dictGet d k with
  | none => rw [hv] at h; simp at h
  | some v => exact ⟨v, rfl⟩

/-! Lemmas about the decimal rendering of naturals. -/

theorem digitVal_digitChar (d : Nat) (h : d < 10) :
    digitVal? (digitChar d) = some d := by
  interval_cases d <;> decide

theorem parseDigitsAux_append (xs ys : List Char) (acc : Nat) :
    parseDigitsAux (xs ++ ys) acc =
      match parseDigitsAux xs acc with
      | some m => parseDigitsAux ys m
      | none => none := by
  induction xs generalizing acc with
  | nil => simp [parseDigitsAux]
  | cons c cs ih =>
      simp only [List.cons_append, parseDigitsAux]
      cases hc : digitVal? c with
      | some d => simp [ih]
      | none => simp

theorem parseDigitsAux_natReprAux (fuel n : Nat) (h : n < fuel) :
    parseDigitsAux (natReprAux fuel n) 0 = some n := by
  induction fuel generalizing n with
  | zero => omega
  | succ fuel ih =>
      by_cases h10 : n < 10
      · simp [natReprAux, h10, parseDigitsAux, digitVal_digitChar n h10]
      · have hdiv : n / 10 < fuel := by omega
        have hmod : n % 10 < 10 := by omega
        simp only [natReprAux, if_neg h10]
        rw [parseDigitsAux_append, ih (n / 10) hdiv]
        simp [parseDigitsAux, digitVal_digitChar _ hmod]
        omega

theorem natRepr_injective : Function.Injective natRepr := by
  intro a b h
  have ha := parseDigitsAux_natReprAux (a + 1) a (Nat.lt_succ_self a)
  have hb := parseDigitsAux_natReprAux (b + 1) b (Nat.lt_succ_self b)
  unfold natRepr at h
  injection h with h'
  rw [h', hb] at ha
  injection ha with hba
  exact hba.symm

/-! Freshness of mypy.util.get_unique_redefinition_name. -/

theorem string_append_left_cancel {s a b : String} (h : s ++ a = s ++ b) : a = b := by
  have hd : (s ++ a).data = (s ++ b).data := congrArg String.data h
  rw [String.data_append, String.data_append] at hd
  exact String.ext (List.append_cancel_left hd)

theorem findFreeSuffix_free {α : Type} (rName : String) (existing : List (String × α)) :
    ∀ fuel i, (∃ j, j < fuel ∧ dictContains existing (rName ++ natRepr (i + j)) = false) →
      dictContains existing (findFreeSuffix rName existing i fuel) = false := by
  intro fuel
  induction fuel with
  | zero =>
      intro i h
      obtain ⟨j, hj, _⟩ := h
      omega
  | succ fuel ih =>
      intro i h
      obtain ⟨j, hj, hfree⟩ := h
      cases hc : dictContains existing (rName ++ natRepr i) with
      | false =>
          simp [findFreeSuffix, hc]
      | true =>
          have hj0 : j ≠ 0 := by
            intro h0
            rw [h0, Nat.add_zero] at hfree
            rw [hfree] at hc
            exact Bool.false_ne_true hc
          have hshift : dictContains existing (rName ++ natRepr ((i + 1) + (j - 1))) = false := by
            have harith : (i + 1) + (j - 1) = i + j := by omega
            rw [harith]
            exact hfree
          simpa [findFreeSuffix, hc] using ih (i + 1) ⟨j - 1, by omega, hshift⟩

theorem exists_free_candidate {α : Type} (rName : String) (existing : List (String × α)) :
    ∃ j, j < existing.length + 1 ∧
      dictContains existing (rName ++ natRepr (2 + j)) = false := by
  by_contra hall
  push_neg at hall
  have hmem : ∀ j, j < existing.length + 1 →
      (rName ++ natRepr (2 + j)) ∈ dictKeys existing := by
    intro j hj
    have hne := hall j hj
    have hc : dictContains existing (rName ++ natRepr (2 + j)) = true := by
      cases hb : dictContains existing (rName ++ natRepr (2 + j)) with
      | false => exact absurd hb hne
      | true => rfl
    exact (dictContains_iff_mem_keys existing _).1 hc
  have hinj : Function.Injective fun j : Nat => rName ++ natRepr (2 + j) := by
    intro a b hab
    have := natRepr_injective (string_append_left_cancel hab)
    omega
  have hsub : ((List.range (existing.length + 1)).map
      fun j => rName ++ natRepr (2 + j)) ⊆ dictKeys existing := by
    intro x hx
    obtain ⟨j, hj, rfl⟩ := List.mem_map.1 hx
    exact hmem j (List.mem_range.1 hj)
  have hnd : ((List.range (existing.length + 1)).map
      fun j => rName ++ natRepr (2 + j)).Nodup :=
    (List.nodup_range _).map hinj
  have hlen := (List.subperm_of_subset hnd hsub).length_le
  simp only [dictKeys, List.length_map, List.length_range] at hlen
  omega

theorem gurn_eq_ite {α : Type} (name : String) (existing : List (String × α)) :
    get_unique_redefinition_name name existing =
      if dictContains existing (name ++ "-redefinition") = false
      then name ++ "-redefinition"
      else findFreeSuffix (name ++ "-redefinition") existing 2 (existing.length + 1) := rfl

theorem gurn_fresh {α : Type} (name : String) (existing : List (String × α)) :
    dictContains existing (get_unique_redefinition_name name existing) = false := by
  rw [gurn_eq_ite]
  by_cases h : dictContains existing (name ++ "-redefinition") = false
  · rw [if_pos h]
    exact h
  · rw [if_neg h]
    exact findFreeSuffix_free (name ++ "-redefinition") existing (existing.length + 1) 2
      (exists_free_candidate _ existing)

theorem findFreeSuffix_shape {α : Type} (rName : String) (existing : List (String × α)) :
    ∀ fuel i, ∃ j, findFreeSuffix rName existing i fuel = rName ++ natRepr j := by
  intro fuel
  induction fuel with
  | zero => exact fun i => ⟨i, rfl⟩
  | succ fuel ih =>
      intro i
      cases hc : dictContains existing (rName ++ natRepr i) with
      | true => simpa [findFreeSuffix, hc] using ih (i + 1)
      | false => exact ⟨i, by simp [findFreeSuffix, hc]⟩

theorem gurn_shape {α : Type} (name : String) (existing : List (String × α)) :
    ∃ t : String,
      get_unique_redefinition_name name existing = name ++ "-redefinition" ++ t := by
  rw [gurn_eq_ite]
  by_cases h : dictContains existing (name ++ "-redefinition") = false
  · rw [if_pos h]
    exact ⟨"", by simp⟩
  · rw [if_neg h]
    obtain ⟨j, hj⟩ :=
      findFreeSuffix_shape (name ++ "-redefinition") existing (existing.length + 1) 2
    exact ⟨natRepr j, hj⟩

theorem gurn_length {α : Type} (name : String) (existing : List (String × α)) :
    name.length < (get_unique_redefinition_name name existing).length := by
  obtain ⟨t, ht⟩ := gurn_shape name existing
  rw [ht]
  have h13 : ("-redefinition" : String).length = 13 := by decide
  simp [String.length_append, h13]
  omega

theorem gurn_ne {α : Type} (name : String) (existing : List (String × α)) :
    get_unique_redefinition_name name existing ≠ name := by
  intro h
  have hlt := gurn_length name existing
  rw [h] at hlt
  omega

/-! Characterization of `_add_method`. -/

theorem argTypesOf_isSome (l : List ArgumentT)
    (h : ∀ a ∈ l, a.typeAnn.isSome = true) :
    ∃ ts, argTypesOf l = some ts := by
  induction l with
  | nil => exact ⟨[], rfl⟩
  | cons a l ih =>
      have ha := h a (List.mem_cons_self a l)
      obtain ⟨t, ht⟩ := Option.isSome_iff_exists.1 ha
      obtain ⟨ts, hts⟩ := ih fun b hb => h b (List.mem_cons_of_mem a hb)
      exact ⟨t :: ts, by simp [argTypesOf, ht, hts]⟩

theorem methodFirstArg_isSome (info : TypeInfoT) (selfType : Option MypyType)
    (isClassmethod : Bool) :
    (methodFirstArg info selfType isClassmethod).typeAnn.isSome = true := by
  cases isClassmethod <;> simp [methodFirstArg]

theorem _add_method_eq (info : TypeInfoT) (name : String) (args : List ArgumentT)
    (returnType : MypyType) (selfType : Option MypyType) (tvarDef : Option TypeVarDefT)
    (isClassmethod : Bool) (argTypes : List MypyType)
    (h : argTypesOf (methodFirstArg info selfType isClassmethod :: args) = some argTypes) :
    _add_method info name args returnType selfType tvarDef isClassmethod =
      .ok { info with
        defsBody := removeStaleBody info name ++
          [StatementT.funcDefStmt (methodFuncDef info name
            (methodFirstArg info selfType isClassmethod :: args)
            (methodSignature (methodFirstArg info selfType isClassmethod :: args)
              argTypes returnType tvarDef) isClassmethod)],
        names := dictSet (renameShift info.names name) name
          (genSym (methodFuncDef info name
            (methodFirstArg info selfType isClassmethod :: args)
            (methodSignature (methodFirstArg info selfType isClassmethod :: args)
              argTypes returnType tvarDef) isClassmethod)) } := by
  simp only [_add_method, h]

theorem _add_method_ok (info : TypeInfoT) (name : String) (args : List ArgumentT)
    (returnType : MypyType) (selfType : Option MypyType) (tvarDef : Option TypeVarDefT)
    (isClassmethod : Bool)
    (h : ∀ a ∈ args, a.typeAnn.isSome = true) :
    ∃ info', _add_method info name args returnType selfType tvarDef isClassmethod
      = .ok info' := by
  have hall : ∀ a ∈ methodFirstArg info selfType isClassmethod :: args,
      a.typeAnn.isSome = true := by
    intro a ha
    rcases List.mem_cons.1 ha with h1 | h2
    · rw [h1]
      exact methodFirstArg_isSome info selfType isClassmethod
    · exact h a h2
  obtain ⟨ts, hts⟩ := argTypesOf_isSome _ hall
  exact ⟨_, _add_method_eq info name args returnType selfType tvarDef isClassmethod ts hts⟩

theorem contains_renameShift_mono (d : List (String × SymbolTableNodeT))
    (name k : String) (h : dictContains d k = true) :
    dictContains (renameShift d name) k = true := by
  unfold renameShift
  cases hg : dictGet d name with
  | none => exact h
  | some sym => exact dictContains_dictSet_mono d _ k sym h

theorem _add_method_contains_mono {info info' : TypeInfoT} {name : String}
    {args : List ArgumentT} {returnType : MypyType} {selfType : Option MypyType}
    {tvarDef : Option TypeVarDefT} {isClassmethod : Bool}
    (hok : _add_method info name args returnType selfType tvarDef isClassmethod = .ok info')
    (k : String) (h : dictContains info.names k = true) :
    dictContains info'.names k = true := by
  simp only [_add_method] at hok
  cases hats : argTypesOf (methodFirstArg info selfType isClassmethod :: args) with
  | none =>
      rw [hats] at hok
      simp at hok
  | some ts =>
      rw [hats] at hok
      simp only [Except.ok.injEq] at hok
      rw [← hok]
      exact dictContains_dictSet_mono _ _ _ _ (contains_renameShift_mono _ _ _ h)

theorem _add_method_contains_self {info info' : TypeInfoT} {name : String}
    {args : List ArgumentT} {returnType : MypyType} {selfType : Option MypyType}
    {tvarDef : Option TypeVarDefT} {isClassmethod : Bool}
    (hok : _add_method info name args returnType selfType tvarDef isClassmethod = .ok info') :
    dictContains info'.names name = true := by
  simp only [_add_method] at hok
  cases hats : argTypesOf (methodFirstArg info selfType isClassmethod :: args) with
  | none =>
      rw [hats] at hok
      simp at hok
  | some ts =>
      rw [hats] at hok
      simp only [Except.ok.injEq] at hok
      rw [← hok]
      exact dictContains_dictSet_self _ _ _

theorem _add_typevar_fst (info : TypeInfoT) (tVarName : String) :
    (_add_typevar info tVarName).1.names =
      dictSet info.names tVarName
        { kind := SymKindT.MDEF,
          node := NodeT.typeVarExprNode tVarName (info.fullname ++ "." ++ tVarName)
            [] (named_type "__builtins__.object"),
          pluginGenerated := false } := rfl

theorem _add_typevar_contains_mono (info : TypeInfoT) (tVarName k : String)
    (h : dictContains info.names k = true) :
    dictContains (_add_typevar info tVarName).1.names k = true := by
  rw [_add_typevar_fst]
  exact dictContains_dictSet_mono _ _ _ _ h

/-! State-threading lemmas for the transformation pipeline. -/

theorem transformCases_contains_mono (instT : MypyType) :
    ∀ (cases : List VarT) (info st : TypeInfoT) (log : List GenSig),
      transformCases instT info cases = .ok (st, log) →
      ∀ k, dictContains info.names k = true → dictContains st.names k = true := by
  intro cases
  induction cases with
  | nil =>
      intro info st log h k hk
      simp only [transformCases, Except.ok.injEq, Prod.mk.injEq] at h
      rw [← h.1]
      exact hk
  | cons case rest ih =>
      intro info st log h k hk
      simp only [transformCases] at h
      split at h
      · exact absurd h (by simp)
      · split at h
        · exact absurd h (by simp)
        · next info1 ham1 =>
            split at h
            · exact absurd h (by simp)
            · next info2 ham2 =>
                split at h
                · exact absurd h (by simp)
                · next i3 lg htr =>
                    simp only [Except.ok.injEq, Prod.mk.injEq] at h
                    rw [← h.1]
                    exact ih info2 i3 lg htr k
                      (_add_method_contains_mono ham2 k
                        (_add_method_contains_mono ham1 k hk))

theorem _transform_class_last (info i2 : TypeInfoT) (log : List GenSig)
    (h : _transform_class info = .ok (i2, log)) :
    ∃ (j : TypeInfoT) (margs : List ArgumentT) (R : TypeVarDefT),
      _add_method j "match" margs (MypyType.typeVarT R) none (some R) false = .ok i2 ∧
      ∀ k, dictContains info.names k = true → dictContains j.names k = true := by
  simp only [_transform_class] at h
  split at h
  · exact absurd h (by simp)
  · next i1 caseLog htc =>
      split at h
      · exact absurd h (by simp)
      · next i3 ham =>
          simp only [Except.ok.injEq, Prod.mk.injEq] at h
          rw [h.1] at ham
          exact ⟨_, _, _, ham, fun k hk =>
            _add_typevar_contains_mono i1 "_MatchResult" k
              (transformCases_contains_mono (fill_typevars info) (_get_class_vars info)
                info i1 caseLog htc k hk)⟩

theorem _add_method_renames {info info' : TypeInfoT} {name : String}
    {args : List ArgumentT} {returnType : MypyType} {selfType : Option MypyType}
    {tvarDef : Option TypeVarDefT} {isClassmethod : Bool}
    (hok : _add_method info name args returnType selfType tvarDef isClassmethod = .ok info')
    (hpresent : dictContains info.names name = true) :
    dictContains info.names (get_unique_redefinition_name name info.names) = false ∧
    dictContains info'.names (get_unique_redefinition_name name info.names) = true := by
  refine ⟨gurn_fresh name info.names, ?_⟩
  simp only [_add_method] at hok
  cases hats : argTypesOf (methodFirstArg info selfType isClassmethod :: args) with
  | none =>
      rw [hats] at hok
      simp at hok
  | some ts =>
      rw [hats] at hok
      simp only [Except.ok.injEq] at hok
      rw [← hok]
      apply dictContains_dictSet_mono
      obtain ⟨sym, hsym⟩ := dictGet_isSome_of_contains hpresent
      unfold renameShift
      rw [hsym]
      exact dictContains_dictSet_self _ _ _

/-- C1 (amended): re-running the class transformation is not idempotent on
the member symbol table.  Whenever the transformation completes twice in
succession, the second run preserves the first run's stale plugin-generated
`match` symbol under a fresh `-redefinition` key before reinstalling `match`,
so the table after the second run differs from the table after the first
(a disambiguated renamed slot accumulates on every pass). -/
theorem C1_reinstall_not_idempotent (info i1 i2 : TypeInfoT) (l1 l2 : List GenSig)
    (h1 : _transform_class info = .ok (i1, l1))
    (h2 : _transform_class i1 = .ok (i2, l2)) :
    i2.names ≠ i1.names := by
  obtain ⟨j1, margs1, R1, ham1, -⟩ := _transform_class_last info i1 l1 h1
  have hmatch_i1 : dictContains i1.names "match" = true := _add_method_contains_self ham1
  obtain ⟨j2, margs2, R2, ham2, hmono2⟩ := _transform_class_last i1 i2 l2 h2
  have hmatch_j2 : dictContains j2.names "match" = true := hmono2 "match" hmatch_i1
  obtain ⟨hfresh, hin⟩ := _add_method_renames ham2 hmatch_j2
  intro hEq
  have hi1 : dictContains i1.names
      (get_unique_redefinition_name "match" j2.names) = true := by
    rw [← hEq]
    exact hin
  have hj2 := hmono2 _ hi1
  simp [hfresh] at hj2

/-- C1 counterexample: for the concrete zero-variant decorated class, both
transformation passes complete, the first pass leaves no
`match-redefinition` slot, the second pass leaves one, and the resulting
member tables of the two passes are not identical — refuting the claimed
observably-identical state and no-accumulation property. -/
theorem C1_counterexample :
    c1Run1.isSome = true ∧ c1Run2.isSome = true ∧
    c1Run1.map (fun i => dictContains i.names "match-redefinition") = some false ∧
    c1Run2.map (fun i => dictContains i.names "match-redefinition") = some true ∧
    c1Run2.map TypeInfoT.names ≠ c1Run1.map TypeInfoT.names := by
  refine ⟨rfl, rfl, rfl, rfl, ?_⟩
  intro hEq
  have hm : ∀ o : Option TypeInfoT,
      o.map (fun i => dictContains i.names "match-redefinition")
        = (o.map TypeInfoT.names).map
            (fun n => dictContains n "match-redefinition") := by
    intro o
    cases o <;> rfl
  have h1 : c1Run1.map (fun i => dictContains i.names "match-redefinition")
      = some false := rfl
  have h2 : c1Run2.map (fun i => dictContains i.names "match-redefinition")
      = some true := rfl
  rw [hm, hEq, ← hm, h1] at h2
  exact absurd h2 (by simp)

/-- C1 witness: the amended theorem applied to the concrete zero-variant
class, whose two passes both complete and yield distinct member tables. -/
theorem C1_witness :
    c1Run1.isSome = true ∧ c1Run2.isSome = true ∧
    c1Run2.map TypeInfoT.names ≠ c1Run1.map TypeInfoT.names := by
  refine ⟨rfl, rfl, ?_⟩
  intro hEq
  cases he1 : _transform_class c1Class with
  | error e =>
      have hnone : c1Run1 = none := by simp [c1Run1, okState, he1]
      exact absurd (show c1Run1.isSome = true from rfl) (by rw [hnone]; simp)
  | ok p =>
      obtain ⟨i1, l1⟩ := p
      have hr1 : c1Run1 = some i1 := by simp [c1Run1, okState, he1]
      cases he2 : _transform_class i1 with
      | error e =>
          have hnone : c1Run2 = none := by simp [c1Run2, hr1, okState, he2]
          exact absurd (show c1Run2.isSome = true from rfl) (by rw [hnone]; simp)
      | ok q =>
          obtain ⟨i2, l2⟩ := q
          have hr2 : c1Run2 = some i2 := by simp [c1Run2, hr1, okState, he2]
          rw [hr1, hr2] at hEq
          simp only [Option.map_some'] at hEq
          exact C1_reinstall_not_idempotent c1Class i1 i2 l1 l2 he1 he2
            (Option.some.inj hEq)

/-- Helper for the untyped-variant claim: `transformCases` raises the
untyped-cases precondition failure whenever some case lacks a declared type. -/
theorem transformCases_error_of_untyped (instT : MypyType) :
    ∀ (cases : List VarT) (info : TypeInfoT) (c : VarT),
      c ∈ cases → c.type = none →
      ∃ st, transformCases instT info cases = .error (untypedCasesMsg, st) := by
  intro cases
  induction cases with
  | nil =>
      intro info c hc
      simp at hc
  | cons hd rest ih =>
      intro info c hc hnone
      rcases List.mem_cons.1 hc with rfl | hmem
      · exact ⟨info, by simp [transformCases, hnone]⟩
      · cases hhd : hd.type with
        | none => exact ⟨info, by simp [transformCases, hhd]⟩
        | some t =>
            obtain ⟨i1, h1⟩ := _add_method_ok info hd.name
              [{ var := hd, typeAnn := some t, initExpr := none,
                 kind := ArgKindT.ARG_POS }] instT none none true
              (by
                intro a ha
                rw [List.mem_singleton] at ha
                subst ha
                rfl)
            obtain ⟨i2, h2⟩ := _add_method_ok i1 (strLower hd.name) [] t none none false
              (by simp)
            obtain ⟨st, hst⟩ := ih i2 c hmem hnone
            exact ⟨st, by simp [transformCases, hhd, h1, h2, hst]⟩

/-- C2 (amended): a variant without a declared type makes the transformation
abort with the untyped-cases precondition failure — but mutations performed
for variants processed before it persist.  When the first declared variant is
the untyped one, the transformation aborts with the member table (indeed the
whole class state) exactly as it was before the attempt; for any untyped
variant anywhere in the list the transformation fails rather than completing. -/
theorem C2_abort_on_untyped_variant (info : TypeInfoT) :
    (∀ c rest, _get_class_vars info = c :: rest → c.type = none →
        _transform_class info = .error (untypedCasesMsg, info)) ∧
    (∀ c, c ∈ _get_class_vars info → c.type = none →
        isOkT (_transform_class info) = false) := by
  constructor
  · intro c rest h hc
    simp [_transform_class, h, transformCases, hc]
  · intro c hmem hc
    obtain ⟨st, hst⟩ :=
      transformCases_error_of_untyped (fill_typevars info) (_get_class_vars info)
        info c hmem hc
    simp [_transform_class, hst, isOkT]

/-- C2 counterexample: for the concrete class declaring `A: int` followed by
the untyped `B`, the transformation aborts, but only after installing variant
`A`'s methods: at the moment of the abort the member table already holds the
generated accessor slot `a`, which the pre-attempt table did not, refuting
"performs no member-table mutation at all for that class". -/
theorem C2_counterexample :
    isOkT (_transform_class c2Class) = false ∧
    dictContains (errNames (_transform_class c2Class)) "a" = true ∧
    dictContains c2Class.names "a" = false ∧
    errNames (_transform_class c2Class) ≠ c2Class.names := by
  refine ⟨rfl, rfl, rfl, ?_⟩
  intro hEq
  have h1 : dictContains (errNames (_transform_class c2Class)) "a" = true := rfl
  have h2 : dictContains c2Class.names "a" = false := rfl
  rw [hEq, h2] at h1
  exact absurd h1 (by simp)

/-- C2 witness: the amended theorem applied to the concrete class whose first
(and only) declared variant is untyped — the transformation aborts with the
class state exactly as before the attempt. -/
theorem C2_witness :
    _get_class_vars c2FirstClass = [{ name := "U", type := none }] ∧
    _transform_class c2FirstClass = .error (untypedCasesMsg, c2FirstClass) :=
  ⟨rfl, (C2_abort_on_untyped_variant c2FirstClass).1
    { name := "U", type := none } [] rfl rfl⟩

/-- C8: `get_class_decorator_hook` returns the class-transform entry point
exactly when the fullname equals the single recognized decorator identity
string `adt.decorator.adt`; for every other fullname it returns `none`. -/
theorem C8_hook_exact_match (fullname : String) :
    (get_class_decorator_hook fullname = some HookT.transformClassHook ↔
      fullname = _ADT_DECORATOR) ∧
    (fullname ≠ _ADT_DECORATOR → get_class_decorator_hook fullname = none) := by
  refine ⟨⟨?_, ?_⟩, ?_⟩
  · intro h
    by_contra hne
    simp [get_class_decorator_hook, hne] at h
  · intro h
    simp [get_class_decorator_hook, h]
  · intro h
    simp [get_class_decorator_hook, h]

/-- C8 witness: the hook lookup applied to the recognized decorator name and
to a different name. -/
theorem C8_witness :
    get_class_decorator_hook "adt.decorator.adt" = some HookT.transformClassHook ∧
    get_class_decorator_hook "adt.decorator.other" = none :=
  ⟨(C8_hook_exact_match "adt.decorator.adt").1.2 rfl,
   (C8_hook_exact_match "adt.decorator.other").2 (by decide)⟩

theorem string_append_right_cancel {a b s : String} (h : a ++ s = b ++ s) : a = b := by
  have hd := congrArg String.data h
  rw [String.data_append, String.data_append] at hd
  exact String.ext (List.append_cancel_right hd)

/-- C9: for two decorated classes with distinct fully qualified names, the
fresh `match` result type variables installed by `_add_typevar` have distinct
fully qualified identities, each derived from its enclosing type's qualified
name, while both carry the source-level name `_MatchResult`. -/
theorem C9_typevar_identity (i1 i2 : TypeInfoT) (h : i1.fullname ≠ i2.fullname) :
    ((_add_typevar i1 "_MatchResult").2).fullname ≠
      ((_add_typevar i2 "_MatchResult").2).fullname ∧
    ((_add_typevar i1 "_MatchResult").2).name = "_MatchResult" ∧
    ((_add_typevar i2 "_MatchResult").2).name = "_MatchResult" ∧
    ((_add_typevar i1 "_MatchResult").2).fullname =
      i1.fullname ++ "." ++ "_MatchResult" := by
  refine ⟨?_, rfl, rfl, rfl⟩
  intro hf
  have hf' : i1.fullname ++ "." ++ "_MatchResult" =
      i2.fullname ++ "." ++ "_MatchResult" := hf
  exact h (string_append_right_cancel (string_append_right_cancel hf'))

/-- C9 witness: the identity theorem applied to two concrete classes with
distinct fully qualified names. -/
theorem C9_witness :
    c9ClassA.fullname ≠ c9ClassB.fullname ∧
    ((_add_typevar c9ClassA "_MatchResult").2).fullname ≠
      ((_add_typevar c9ClassB "_MatchResult").2).fullname :=
  ⟨by decide, (C9_typevar_identity c9ClassA c9ClassB (by decide)).1⟩

/-- C5: when a generated method name is already bound to a user-authored (not
plugin-generated) symbol, `_add_method` completes, the redefinition name it
derives is deterministic (a function of the name and table) and free in the
pre-state table (collision-free), the user's symbol remains reachable
unchanged under that name, and the canonical name is occupied by the
plugin-generated symbol holding the generated FuncDef of that name — the
user's definition is not deleted. -/
theorem C5_user_symbol_preserved (info : TypeInfoT) (name : String)
    (args : List ArgumentT) (returnType : MypyType) (selfType : Option MypyType)
    (tvarDef : Option TypeVarDefT) (isClassmethod : Bool) (sym : SymbolTableNodeT)
    (huser : dictGet info.names name = some sym)
    (_hgen : sym.pluginGenerated = false)
    (hargs : ∀ a ∈ args, a.typeAnn.isSome = true) :
    addIsOk (_add_method info name args returnType selfType tvarDef isClassmethod)
      = true ∧
    dictContains info.names (get_unique_redefinition_name name info.names) = false ∧
    dictGet (addNames (_add_method info name args returnType selfType tvarDef
        isClassmethod)) (get_unique_redefinition_name name info.names) = some sym ∧
    (dictGet (addNames (_add_method info name args returnType selfType tvarDef
        isClassmethod)) name).map
      (fun s => (s.pluginGenerated, nodeFuncName s.node)) = some (true, some name) := by
  have hall : ∀ a ∈ methodFirstArg info selfType isClassmethod :: args,
      a.typeAnn.isSome = true := by
    intro a ha
    rcases List.mem_cons.1 ha with h1 | h2
    · rw [h1]
      exact methodFirstArg_isSome info selfType isClassmethod
    · exact hargs a h2
  obtain ⟨ts, hts⟩ := argTypesOf_isSome _ hall
  rw [_add_method_eq info name args returnType selfType tvarDef isClassmethod ts hts]
  refine ⟨rfl, gurn_fresh name info.names, ?_, ?_⟩
  · simp only [addNames]
    rw [dictGet_dictSet_ne _ _ _ _ (gurn_ne name info.names)]
    unfold renameShift
    rw [huser]
    exact dictGet_dictSet_self _ _ _
  · simp only [addNames]
    rw [dictGet_dictSet_self]
    rfl

/-- C5 witness: the preservation theorem applied to a concrete class whose
member table holds a user-authored method `A` colliding with the generated
constructor name `A`: the user's symbol ends up reachable under the derived
redefinition name `A-redefinition`. -/
theorem C5_witness :
    dictGet c5Info.names "A" = some c5UserSym ∧
    c5UserSym.pluginGenerated = false ∧
    get_unique_redefinition_name "A" c5Info.names = "A-redefinition" ∧
    dictGet (addNames (_add_method c5Info "A" c5Args (fill_typevars c5Info)
        none none true)) (get_unique_redefinition_name "A" c5Info.names)
      = some c5UserSym := by
  refine ⟨rfl, rfl, rfl, ?_⟩
  exact (C5_user_symbol_preserved c5Info "A" c5Args (fill_typevars c5Info)
    none none true c5UserSym rfl rfl
    (by
      intro a ha
      rw [c5Args, List.mem_singleton] at ha
      subst ha
      rfl)).2.2.1

/-- Cross-multiplied decimal comparison agrees with the numeric value order:
the refinement between decimal.Decimal's comparison and the spec's
numeric-decimal reading. -/
theorem decimalLE_iff (a b : Nat × Nat) :
    decimalLE a b = true ↔ decimalValue a ≤ decimalValue b := by
  unfold decimalLE decimalValue
  rw [decide_eq_true_eq]
  rw [div_le_div_iff₀ (by positivity) (by positivity)]
  constructor
  · intro h
    exact_mod_cast h
  · intro h
    exact_mod_cast h

/-- C7: `plugin(version)` succeeds — returning the plugin class and thereby
registering the transformation — exactly when the version string parses as a
decimal numeral whose numeric value is at least 0.711 (numeric-decimal
comparison, not lexical), and fails at registration time otherwise; in
particular "0.700" is rejected and "0.711" is accepted. -/
theorem C7_version_gate :
    (∀ v : String, plugin v = .ok PluginClassT.ADTPlugin ↔
      ∃ d, parseDecimal v = some d ∧ (711 / 1000 : ℚ) ≤ decimalValue d) ∧
    plugin "0.700" = .error "AssertionError" ∧
    plugin "0.711" = .ok PluginClassT.ADTPlugin := by
  have hfloor : parseDecimal "0.711" = some (711, 3) := rfl
  have h711 : decimalValue (711, 3) = 711 / 1000 := by
    norm_num [decimalValue]
  refine ⟨?_, rfl, rfl⟩
  intro v
  constructor
  · intro h
    simp only [plugin] at h
    rw [hfloor] at h
    cases hv : parseDecimal v with
    | none =>
        rw [hv] at h
        simp at h
    | some d =>
        rw [hv] at h
        have h' : (if decimalLE (711, 3) d = true then Except.ok PluginClassT.ADTPlugin
            else Except.error "AssertionError") = Except.ok PluginClassT.ADTPlugin := h
        cases hle : decimalLE (711, 3) d with
        | false =>
            rw [hle] at h'
            simp at h'
        | true =>
            refine ⟨d, rfl, ?_⟩
            rw [← h711]
            exact (decimalLE_iff (711, 3) d).1 hle
  · intro hex
    obtain ⟨d, hd, hq⟩ := hex
    simp only [plugin]
    rw [hfloor, hd]
    show (if decimalLE (711, 3) d = true then Except.ok PluginClassT.ADTPlugin
        else Except.error "AssertionError") = Except.ok PluginClassT.ADTPlugin
    have hle : decimalLE (711, 3) d = true := by
      rw [decimalLE_iff, h711]
      exact hq
    rw [hle]
    simp

/-- C7 witness: the gate theorem applied to two concrete version strings, one
numerically above the floor and one below. -/
theorem C7_witness :
    plugin "0.75" = .ok PluginClassT.ADTPlugin ∧
    plugin "0.7" ≠ .ok PluginClassT.ADTPlugin := by
  constructor
  · refine (C7_version_gate.1 "0.75").2 ⟨(75, 2), rfl, ?_⟩
    norm_num [decimalValue]
  · intro h
    obtain ⟨d, hd, hq⟩ := (C7_version_gate.1 "0.7").1 h
    have h07 : parseDecimal "0.7" = some (7, 1) := rfl
    rw [h07] at hd
    rw [← Option.some.inj hd] at hq
    norm_num [decimalValue] at hq

/-- C10: for a decorated class declaring zero variants the transformation
still completes and still mutates the member table: it installs the
`_MatchResult` type-variable symbol (qualified by the class's fullname, not
plugin-marked) and a plugin-generated `match` instance method taking no
handler parameters (only `self`) and returning the fresh result type
variable; the resulting table differs from the pre-transformation table. -/
theorem C10_zero_variant_class (info : TypeInfoT) (h : _get_class_vars info = []) :
    isOkT (_transform_class info) = true ∧
    dictGet (okNames (_transform_class info)) "_MatchResult"
      = some (matchResultSym info) ∧
    dictGet (okNames (_transform_class info)) "match"
      = some (genSym (zeroVariantMatchFunc info)) ∧
    okNames (_transform_class info) ≠ info.names := by
  have htc : transformCases (fill_typevars info) info [] = .ok (info, []) := rfl
  have hats : argTypesOf [methodFirstArg (_add_typevar info "_MatchResult").1 none false]
      = some [fill_typevars (_add_typevar info "_MatchResult").1] := rfl
  have ham := _add_method_eq (_add_typevar info "_MatchResult").1 "match" []
      (MypyType.typeVarT (_add_typevar info "_MatchResult").2) none
      (some (_add_typevar info "_MatchResult").2) false
      [fill_typevars (_add_typevar info "_MatchResult").1] hats
  have hnames : okNames (_transform_class info)
      = dictSet (renameShift (_add_typevar info "_MatchResult").1.names "match") "match"
          (genSym (zeroVariantMatchFunc info)) := by
    simp only [_transform_class, htc, h, List.foldl_nil, List.map_nil, ham, okNames]
    rfl
  have hok : isOkT (_transform_class info) = true := by
    simp only [_transform_class, htc, h, List.foldl_nil, List.map_nil, ham, isOkT]
  refine ⟨hok, ?_, ?_, ?_⟩
  · rw [hnames]
    rw [dictGet_dictSet_ne _ _ _ _ (show "_MatchResult" ≠ "match" by decide)]
    unfold renameShift
    cases hg : dictGet (_add_typevar info "_MatchResult").1.names "match" with
    | none =>
        rw [_add_typevar_fst]
        exact dictGet_dictSet_self _ _ _
    | some sym =>
        have hfresh := gurn_fresh "match" (_add_typevar info "_MatchResult").1.names
        have hcontains : dictContains (_add_typevar info "_MatchResult").1.names
            "_MatchResult" = true := by
          rw [_add_typevar_fst]
          exact dictContains_dictSet_self _ _ _
        have hne : "_MatchResult" ≠
            get_unique_redefinition_name "match" (_add_typevar info "_MatchResult").1.names := by
          intro he
          rw [← he] at hfresh
          rw [hcontains] at hfresh
          exact absurd hfresh (by simp)
        rw [dictGet_dictSet_ne _ _ _ _ hne]
        rw [_add_typevar_fst]
        exact dictGet_dictSet_self _ _ _
  · rw [hnames]
    exact dictGet_dictSet_self _ _ _
  · intro hEq
    cases hg : dictContains info.names "match" with
    | false =>
        have hin : dictContains (okNames (_transform_class info)) "match" = true := by
          rw [hnames]
          exact dictContains_dictSet_self _ _ _
        rw [hEq, hg] at hin
        exact absurd hin (by simp)
    | true =>
        have hfresh := gurn_fresh "match" (_add_typevar info "_MatchResult").1.names
        have hrIn : dictContains (okNames (_transform_class info))
            (get_unique_redefinition_name "match"
              (_add_typevar info "_MatchResult").1.names) = true := by
          rw [hnames]
          apply dictContains_dictSet_mono
          unfold renameShift
          obtain ⟨sym, hsym⟩ := dictGet_isSome_of_contains
            (_add_typevar_contains_mono info "_MatchResult" "match" hg)
          rw [hsym]
          exact dictContains_dictSet_self _ _ _
        have hrOut : dictContains info.names
            (get_unique_redefinition_name "match"
              (_add_typevar info "_MatchResult").1.names) = false := by
          cases hb : dictContains info.names
              (get_unique_redefinition_name "match"
                (_add_typevar info "_MatchResult").1.names) with
          | false => rfl
          | true =>
              have hup := _add_typevar_contains_mono info "_MatchResult" _ hb
              rw [hfresh] at hup
              exact absurd hup (by simp)
        rw [hEq, hrOut] at hrIn
        exact absurd hrIn (by simp)

/-- C10 witness: the zero-variant theorem applied to a concrete class with an
empty variant list. -/
theorem C10_witness :
    _get_class_vars c10Class = [] ∧
    dictGet (okNames (_transform_class c10Class)) "_MatchResult"
      = some (matchResultSym c10Class) ∧
    dictGet (okNames (_transform_class c10Class)) "match"
      = some (genSym (zeroVariantMatchFunc c10Class)) :=
  ⟨rfl, (C10_zero_variant_class c10Class rfl).2.1,
    (C10_zero_variant_class c10Class rfl).2.2.1⟩

/-! The emission trace of `_transform_class` on fully typed variant lists. -/

theorem transformCases_trace (instT : MypyType) :
    ∀ (cases : List VarT) (info : TypeInfoT),
      (∀ c ∈ cases, c.type.isSome = true) →
      ∃ st, transformCases instT info cases =
        .ok (st, cases.flatMap fun c =>
          [specConstructorSig instT c, specAccessorSig c]) := by
  intro cases
  induction cases with
  | nil =>
      intro info _
      exact ⟨info, rfl⟩
  | cons c rest ih =>
      intro info h
      obtain ⟨t, ht⟩ := Option.isSome_iff_exists.1 (h c (List.mem_cons_self c rest))
      obtain ⟨i1, h1⟩ := _add_method_ok info c.name
        [{ var := c, typeAnn := some t, initExpr := none,
           kind := ArgKindT.ARG_POS }] instT none none true
        (by
          intro a ha
          rw [List.mem_singleton] at ha
          subst ha
          rfl)
      obtain ⟨i2, h2⟩ := _add_method_ok i1 (strLower c.name) [] t none none false
        (by simp)
      obtain ⟨st, hst⟩ := ih i2 fun c' hc' => h c' (List.mem_cons_of_mem c hc')
      refine ⟨st, ?_⟩
      simp only [transformCases, ht, h1, h2, hst, List.flatMap_cons]
      simp [specConstructorSig, specAccessorSig, ht]

theorem _add_method_fullname {info info' : TypeInfoT} {name : String}
    {args : List ArgumentT} {returnType : MypyType} {selfType : Option MypyType}
    {tvarDef : Option TypeVarDefT} {isClassmethod : Bool}
    (hok : _add_method info name args returnType selfType tvarDef isClassmethod
      = .ok info') :
    info'.fullname = info.fullname := by
  simp only [_add_method] at hok
  cases hats : argTypesOf (methodFirstArg info selfType isClassmethod :: args) with
  | none =>
      rw [hats] at hok
      simp at hok
  | some ts =>
      rw [hats] at hok
      simp only [Except.ok.injEq] at hok
      rw [← hok]

theorem transformCases_fullname (instT : MypyType) :
    ∀ (cases : List VarT) (info st : TypeInfoT) (log : List GenSig),
      transformCases instT info cases = .ok (st, log) →
      st.fullname = info.fullname := by
  intro cases
  induction cases with
  | nil =>
      intro info st log hh
      simp only [transformCases, Except.ok.injEq, Prod.mk.injEq] at hh
      rw [← hh.1]
  | cons c rest ih =>
      intro info st log hh
      simp only [transformCases] at hh
      split at hh
      · exact absurd hh (by simp)
      · split at hh
        · exact absurd hh (by simp)
        · next i1 h1 =>
            split at hh
            · exact absurd hh (by simp)
            · next i2 h2 =>
                split at hh
                · exact absurd hh (by simp)
                · next i3 lg h3 =>
                    simp only [Except.ok.injEq, Prod.mk.injEq] at hh
                    rw [← hh.1]
                    rw [ih i2 i3 lg h3, _add_method_fullname h2,
                      _add_method_fullname h1]

theorem flatMap_pair_length {α β : Type} (f g : α → β) (l : List α) :
    (l.flatMap fun c => [f c, g c]).length = 2 * l.length := by
  induction l with
  | nil => simp
  | cons a l ih =>
      simp only [List.flatMap_cons, List.length_append, ih, List.length_cons,
        List.length_nil]
      omega

theorem varDictSet_append (d : List (VarT × MypyType)) (k : VarT) (v : MypyType)
    (h : ∀ p ∈ d, p.1.name ≠ k.name) : varDictSet d k v = d ++ [(k, v)] := by
  induction d with
  | nil => rfl
  | cons p d ih =>
      obtain ⟨k', v'⟩ := p
      have hne : k'.name ≠ k.name := h (k', v') (List.mem_cons_self _ _)
      simp only [varDictSet, if_neg hne, List.cons_append, List.cons.injEq, true_and]
      exact ih fun q hq => h q (List.mem_cons_of_mem _ hq)

theorem foldl_varDictSet_eq_map (f : VarT → MypyType) :
    ∀ (cases : List VarT) (d : List (VarT × MypyType)),
      (∀ p ∈ d, ∀ c ∈ cases, p.1.name ≠ c.name) →
      (cases.map VarT.name).Nodup →
      cases.foldl (fun acc case => varDictSet acc case (f case)) d
        = d ++ cases.map fun c => (c, f c) := by
  intro cases
  induction cases with
  | nil =>
      intro d _ _
      simp
  | cons c rest ih =>
      intro d hdisj hnd
      have hnd' : ((c :: rest).map VarT.name).Nodup := hnd
      rw [List.map_cons, List.nodup_cons] at hnd'
      have hdisj' : ∀ p ∈ d ++ [(c, f c)], ∀ c' ∈ rest, p.1.name ≠ c'.name := by
        intro p hp c' hc'
        rcases List.mem_append.1 hp with hpd | hpc
        · exact hdisj p hpd c' (List.mem_cons_of_mem c hc')
        · rw [List.mem_singleton] at hpc
          subst hpc
          intro hcc
          exact hnd'.1 (hcc ▸ List.mem_map_of_mem VarT.name hc')
      simp only [List.foldl_cons]
      rw [varDictSet_append d c (f c) fun p hp => hdisj p hp c (List.mem_cons_self c rest)]
      rw [ih (d ++ [(c, f c)]) hdisj' hnd'.2]
      simp

theorem _transform_class_log (info : TypeInfoT)
    (h : ∀ c ∈ _get_class_vars info, c.type.isSome = true) :
    isOkT (_transform_class info) = true ∧
    okLog (_transform_class info)
      = ((_get_class_vars info).flatMap fun c =>
          [specConstructorSig (fill_typevars info) c, specAccessorSig c]) ++
        [{ name := "match",
           args := ((_get_class_vars info).foldl
               (fun d case => varDictSet d case
                 (_callable_type_for_adt_case case (specMatchResultVar info))) []).map
             fun q =>
               { var := { name := strLower q.1.name, type := some q.2 },
                 typeAnn := some q.2, initExpr := none,
                 kind := ArgKindT.ARG_NAMED },
           returnType := MypyType.typeVarT (specMatchResultVar info),
           tvarDef := some (specMatchResultVar info),
           isClassmethod := false }] := by
  obtain ⟨st, hst⟩ := transformCases_trace (fill_typevars info) (_get_class_vars info) info h
  have hfull : st.fullname = info.fullname :=
    transformCases_fullname (fill_typevars info) (_get_class_vars info) info st _ hst
  have hR : (_add_typevar st "_MatchResult").2 = specMatchResultVar info := by
    simp only [_add_typevar, specMatchResultVar, named_type, hfull]
  obtain ⟨fin, hfin⟩ := _add_method_ok (_add_typevar st "_MatchResult").1 "match"
      (((_get_class_vars info).foldl
        (fun d case => varDictSet d case
          (_callable_type_for_adt_case case (_add_typevar st "_MatchResult").2)) []).map
        fun q => { var := { name := strLower q.1.name, type := some q.2 },
                   typeAnn := some q.2, initExpr := none,
                   kind := ArgKindT.ARG_NAMED })
      (MypyType.typeVarT (_add_typevar st "_MatchResult").2) none
      (some (_add_typevar st "_MatchResult").2) false
      (by
        intro a ha
        obtain ⟨q, hq, rfl⟩ := List.mem_map.1 ha
        rfl)
  rw [hR] at hfin
  constructor
  · simp only [_transform_class, hst, hR, hfin, isOkT]
  · simp only [_transform_class, hst, hR, hfin, okLog]

/-- C3: for every decorated class whose declared variants are all typed, the
transformation completes, and its emission trace is, for each variant in
declaration order, exactly the specified classmethod constructor (named
exactly like the variant, one required positional payload parameter carrying
the declared type, returning the enclosing type) followed by the specified
instance accessor (named by lowercasing the variant name, zero parameters,
returning the declared type); beyond those 2n emissions only the single
final `match` request remains. -/
theorem C3_constructor_accessor_emission (info : TypeInfoT)
    (h : ∀ c ∈ _get_class_vars info, c.type.isSome = true) :
    isOkT (_transform_class info) = true ∧
    (okLog (_transform_class info)).take (2 * (_get_class_vars info).length)
      = (_get_class_vars info).flatMap
          (fun c => [specConstructorSig (fill_typevars info) c, specAccessorSig c]) ∧
    (okLog (_transform_class info)).length
      = 2 * (_get_class_vars info).length + 1 := by
  obtain ⟨hok, hlog⟩ := _transform_class_log info h
  refine ⟨hok, ?_, ?_⟩
  · rw [hlog]
    rw [← flatMap_pair_length (specConstructorSig (fill_typevars info)) specAccessorSig
      (_get_class_vars info)]
    exact List.take_left _ _
  · rw [hlog, List.length_append, flatMap_pair_length]
    rfl

/-- C3 witness: the emission theorem applied to the spec's order-preservation
example `[A: int, B: str, C: bool]` — the first six emitted signatures are
exactly the three constructor/accessor pairs in declaration order. -/
theorem C3_witness :
    (∀ c ∈ _get_class_vars c3Class, c.type.isSome = true) ∧
    (okLog (_transform_class c3Class)).take 6
      = [specConstructorSig (fill_typevars c3Class) c3VarA, specAccessorSig c3VarA,
         specConstructorSig (fill_typevars c3Class) c3VarB, specAccessorSig c3VarB,
         specConstructorSig (fill_typevars c3Class) c3VarC, specAccessorSig c3VarC] := by
  have hcases : _get_class_vars c3Class = [c3VarA, c3VarB, c3VarC] := rfl
  have hh : ∀ c ∈ _get_class_vars c3Class, c.type.isSome = true := by
    intro c hc
    rw [hcases] at hc
    rcases List.mem_cons.1 hc with rfl | hc
    · rfl
    · rcases List.mem_cons.1 hc with rfl | hc
      · rfl
      · rcases List.mem_cons.1 hc with rfl | hc
        · rfl
        · simp at hc
  refine ⟨hh, ?_⟩
  have hthm := (C3_constructor_accessor_emission c3Class hh).2.1
  rw [show 2 * (_get_class_vars c3Class).length = 6 from rfl] at hthm
  rw [hthm, hcases]
  rfl

/-- C4: for every decorated class whose declared variants are all typed and
carry pairwise distinct names, the transformation completes and its final
emission is exactly the specified `match` method: an instance method generic
over the fresh `_MatchResult` type variable, with one required named
parameter per variant in declaration order — named by lowercasing the
variant name, typed as a function from the declared payload type to the
result variable, with no default — returning the result variable. -/
theorem C4_match_signature (info : TypeInfoT)
    (h : ∀ c ∈ _get_class_vars info, c.type.isSome = true)
    (hnd : ((_get_class_vars info).map VarT.name).Nodup) :
    isOkT (_transform_class info) = true ∧
    (okLog (_transform_class info)).drop (2 * (_get_class_vars info).length)
      = [specMatchSig info] := by
  obtain ⟨hok, hlog⟩ := _transform_class_log info h
  refine ⟨hok, ?_⟩
  rw [hlog]
  rw [← flatMap_pair_length (specConstructorSig (fill_typevars info)) specAccessorSig
    (_get_class_vars info)]
  rw [List.drop_left]
  rw [foldl_varDictSet_eq_map _ (_get_class_vars info) [] (by simp) hnd]
  simp only [List.nil_append, List.map_map]
  rfl

/-- C4 witness: the match-signature theorem applied to the example class
`[A: int, B: str, C: bool]`, whose variant names are pairwise distinct. -/
theorem C4_witness :
    ((_get_class_vars c3Class).map VarT.name).Nodup ∧
    (okLog (_transform_class c3Class)).drop 6 = [specMatchSig c3Class] := by
  have hcases : _get_class_vars c3Class = [c3VarA, c3VarB, c3VarC] := rfl
  have hh : ∀ c ∈ _get_class_vars c3Class, c.type.isSome = true := by
    intro c hc
    rw [hcases] at hc
    rcases List.mem_cons.1 hc with rfl | hc
    · rfl
    · rcases List.mem_cons.1 hc with rfl | hc
      · rfl
      · rcases List.mem_cons.1 hc with rfl | hc
        · rfl
        · simp at hc
  have hnd : ((_get_class_vars c3Class).map VarT.name).Nodup := by
    rw [hcases]
    decide
  refine ⟨hnd, ?_⟩
  have hthm := (C4_match_signature c3Class hh hnd).2
  rw [show 2 * (_get_class_vars c3Class).length = 6 from rfl] at hthm
  exact hthm

/-- C6: for the concrete decorated class declaring `Foo: int` and `FOO: str`
— two variants whose lowercase-folded names coincide — the transformation
does not fail: it completes, the folded accessor slot `foo` is occupied by a
single accessor (the second variant's, the first surviving only under the
disambiguated slot `foo-redefinition`), and the generated `match` method
carries two parameters both named `foo`.  This evaluates the code at the
failing input of the naming-collision claim, which requires an abort here. -/
theorem C6_collision_not_rejected :
    isOkT (_transform_class c6Class) = true ∧
    dictContains (okNames (_transform_class c6Class)) "foo" = true ∧
    dictContains (okNames (_transform_class c6Class)) "foo-redefinition" = true ∧
    (okLog (_transform_class c6Class)).map (fun g => g.name)
      = ["Foo", "foo", "FOO", "foo", "match"] ∧
    ((okLog (_transform_class c6Class)).map fun g => g.args.map fun a => a.var.name)
      = [["Foo"], [], ["FOO"], [], ["foo", "foo"]] :=
  ⟨rfl, rfl, rfl, rfl, rfl⟩
